import Mathlib

/-!
Verification of the DDM (Drift Detection Method) concept-drift detector
from `src/creme/drift/ddm.py`.

The detector is a small state machine over floating-point scalars.  We model
floats as real numbers (`ℝ`) and the three minima — which Python initializes
to `float("inf")` — as extended reals (`EReal`), so that `+∞` and the
comparisons against it are represented faithfully.  `np.sqrt` is modelled by
`Real.sqrt`.  The observation (`prediction` in the source) is a real number;
the documented domain is `{0, 1}`.
-/

/-- The state of one DDM detector instance: the fields of the Python object.
`sample_count`, `miss_prob`, `miss_std` are the running statistics;
`miss_prob_sd_min`, `miss_prob_min`, `miss_sd_min` are the coupled minimum
snapshot (initialized to `+∞`); `min_instances`, `warning_level`,
`out_control_level` are the configuration fixed at construction;
`in_concept_change` / `in_warning_zone` are the base-class flags.
(The set-but-never-read bookkeeping attributes `estimation` and `delay` are
outside the spec's data model and are not modelled.) -/
structure DDM where
  sample_count : ℕ
  miss_prob : ℝ
  miss_std : ℝ
  miss_prob_sd_min : EReal
  miss_prob_min : EReal
  miss_sd_min : EReal
  min_instances : ℕ
  warning_level : ℝ
  out_control_level : ℝ
  in_concept_change : Bool
  in_warning_zone : Bool

/-- Model of `DDM.reset` from the source: `sample_count ← 1`, `miss_prob ← 1.0`,
`miss_std ← 0.0`, the three minima `← float("inf")`.
Modelled from the spec: the call `super().reset()` goes to the base
`DriftDetector` class, which is not under `src/`; per the spec's base-class
contract (§6, §9) it clears the shared flags `_in_concept_change` and
`_in_warning_zone`. The configuration fields are untouched. -/
def DDM.reset (st : DDM) : DDM :=
  { st with
    sample_count := 1
    miss_prob := 1
    miss_std := 0
    miss_prob_sd_min := ⊤
    miss_prob_min := ⊤
    miss_sd_min := ⊤
    in_concept_change := false
    in_warning_zone := false }

/-- Model of `DDM.__init__` from the source: store the configuration, then `reset()`.
Modelled from the spec: `super().__init__()` (base class not under `src/`)
initializes the shared flags, which `reset()` immediately overwrites, so the
fresh state is exactly the reset state with the given configuration. -/
def DDM.init (m : ℕ) (w o : ℝ) : DDM :=
  DDM.reset
    { sample_count := 1, miss_prob := 1, miss_std := 0,
      miss_prob_sd_min := ⊤, miss_prob_min := ⊤, miss_sd_min := ⊤,
      min_instances := m, warning_level := w, out_control_level := o,
      in_concept_change := false, in_warning_zone := false }

/-- Lines 128–135 of `add_element`: incorporate the observation into
`miss_prob` with the pre-increment `sample_count` as divisor, recompute
`miss_std` with the same pre-increment count, then increment `sample_count`
and clear both flags. -/
noncomputable def DDM.update_stats (st : DDM) (prediction : ℝ) : DDM :=
  let mp := st.miss_prob + (prediction - st.miss_prob) / (st.sample_count : ℝ)
  { st with
    miss_prob := mp
    miss_std := Real.sqrt (mp * (1 - mp) / (st.sample_count : ℝ))
    sample_count := st.sample_count + 1
    in_concept_change := false
    in_warning_zone := false }

/-- Lines 140–143 of `add_element`: the minimum-tracking step.  If
`miss_prob + miss_std ≤ miss_prob_sd_min`, record the coupled snapshot. -/
noncomputable def DDM.track (st : DDM) : DDM :=
  if ((st.miss_prob + st.miss_std : ℝ) : EReal) ≤ st.miss_prob_sd_min then
    { st with
      miss_prob_min := (st.miss_prob : EReal)
      miss_sd_min := (st.miss_std : EReal)
      miss_prob_sd_min := ((st.miss_prob + st.miss_std : ℝ) : EReal) }
  else st

/-- Lines 145–156 of `add_element`: the two-threshold classification.
Drift is checked first; the warning check is the `elif` branch.  Returns the
updated state together with the returned pair
`(in_concept_change, in_warning_zone)`. -/
noncomputable def DDM.classify (st : DDM) : DDM × Bool × Bool :=
  if st.miss_prob_min + (st.out_control_level : EReal) * st.miss_sd_min
      < ((st.miss_prob + st.miss_std : ℝ) : EReal) then
    ({ st with in_concept_change := true }, true, false)
  else if st.miss_prob_min + (st.warning_level : EReal) * st.miss_sd_min
      < ((st.miss_prob + st.miss_std : ℝ) : EReal) then
    ({ st with in_warning_zone := true }, false, true)
  else
    (st, false, false)

/-- Lines 128–156 of `add_element`: everything after the lazy-reset check.
Statistics update, then the warm-up gate (early return using the
post-increment `sample_count`), then minimum tracking and classification. -/
noncomputable def DDM.step (st : DDM) (prediction : ℝ) : DDM × Bool × Bool :=
  let st1 := st.update_stats prediction
  if st1.sample_count < st1.min_instances then
    (st1, false, false)
  else
    (st1.track).classify

/-- Model of `DDM.add_element` from the source, lines 125–156: if the previous call
flagged drift, `reset()` first (lazy reset), then run the update/gate/
track/classify pipeline. -/
noncomputable def DDM.add_element (st : DDM) (prediction : ℝ) : DDM × Bool × Bool :=
  DDM.step (if st.in_concept_change then st.reset else st) prediction

/-- The detector state after feeding a list of observations one at a time. -/
noncomputable def DDM.run (st : DDM) : List ℝ → DDM
  | [] => st
  | x :: xs => DDM.run (st.add_element x).1 xs

/-- The list of `(in_drift, in_warning)` pairs returned by successive
`add_element` calls on a list of observations. -/
noncomputable def DDM.outputs (st : DDM) : List ℝ → List (Bool × Bool)
  | [] => []
  | x :: xs => (st.add_element x).2 :: DDM.outputs (st.add_element x).1 xs

/-- The value `miss_prob + miss_std` right after each call of a run: the
quantity whose running minimum the spec says `min_sum` records. -/
noncomputable def DDM.sumList (st : DDM) : List ℝ → List ℝ
  | [] => []
  | x :: xs =>
    let st1 := (st.add_element x).1
    (st1.miss_prob + st1.miss_std) :: DDM.sumList st1 xs

/-- The value `miss_prob + miss_std` right after each call of a run that
passed the warm-up gate (post-increment `sample_count ≥ min_instances`),
i.e. the calls on which the minimum-tracking step actually executed. -/
noncomputable def DDM.trackedSums (st : DDM) : List ℝ → List ℝ
  | [] => []
  | x :: xs =>
    let st1 := (st.add_element x).1
    if st1.sample_count < st1.min_instances then DDM.trackedSums st1 xs
    else (st1.miss_prob + st1.miss_std) :: DDM.trackedSums st1 xs

/-- State used to exercise the lazy-reset behaviour: a single further
error observation pushes `miss_prob + miss_std` above the out-control
threshold recorded in the minima, so `add_element 1` reports drift. -/
noncomputable def driftState : DDM :=
  { sample_count := 1, miss_prob := 1, miss_std := 0,
    miss_prob_sd_min := ((0 : ℝ) : EReal), miss_prob_min := ((0 : ℝ) : EReal),
    miss_sd_min := ((0 : ℝ) : EReal), min_instances := 2,
    warning_level := 2, out_control_level := 3,
    in_concept_change := false, in_warning_zone := false }

/-- State whose post-update, post-tracking `miss_prob + miss_std` is exactly
equal to `miss_prob_min + warning_level * miss_sd_min`: feeding observation 1
gives `miss_prob = 1`, `miss_std = 0` and the threshold `0 + 2 * (1/2) = 1`. -/
noncomputable def eqState : DDM :=
  { sample_count := 1, miss_prob := 1, miss_std := 0,
    miss_prob_sd_min := ((0 : ℝ) : EReal), miss_prob_min := ((0 : ℝ) : EReal),
    miss_sd_min := ((1/2 : ℝ) : EReal), min_instances := 2,
    warning_level := 2, out_control_level := 3,
    in_concept_change := false, in_warning_zone := false }

/-- State strictly inside the warning band: feeding observation 1 gives
`miss_prob + miss_std = 1` with warning threshold `0 + 2 * (2/5) = 4/5 < 1`
and out-control threshold `0 + 3 * (2/5) = 6/5 > 1`, so the call returns
`(false, true)`. -/
noncomputable def warnState : DDM :=
  { sample_count := 1, miss_prob := 1, miss_std := 0,
    miss_prob_sd_min := ((0 : ℝ) : EReal), miss_prob_min := ((0 : ℝ) : EReal),
    miss_sd_min := ((2/5 : ℝ) : EReal), min_instances := 2,
    warning_level := 2, out_control_level := 3,
    in_concept_change := false, in_warning_zone := false }

/-- The detector state after `add_element 0` on a fresh detector configured
with `min_instances = 3`, `warning_level = 1/4`, `out_control_level = 1/2`
(a configuration satisfying `out_control_level > warning_level > 0`). -/
noncomputable def c1Mid : DDM :=
  { sample_count := 2, miss_prob := 0, miss_std := 0,
    miss_prob_sd_min := ⊤, miss_prob_min := ⊤, miss_sd_min := ⊤,
    min_instances := 3, warning_level := 1/4, out_control_level := 1/2,
    in_concept_change := false, in_warning_zone := false }

/-! ### Basic projection lemmas -/

theorem DDM.step_sample_count (st : DDM) (x : ℝ) :
    (st.step x).1.sample_count = st.sample_count + 1 := by
  simp only [DDM.step, DDM.update_stats, DDM.track, DDM.classify]
  split_ifs <;> rfl

theorem DDM.step_min_instances (st : DDM) (x : ℝ) :
    (st.step x).1.min_instances = st.min_instances := by
  simp only [DDM.step, DDM.update_stats, DDM.track, DDM.classify]
  split_ifs <;> rfl

theorem DDM.step_warning_level (st : DDM) (x : ℝ) :
    (st.step x).1.warning_level = st.warning_level := by
  simp only [DDM.step, DDM.update_stats, DDM.track, DDM.classify]
  split_ifs <;> rfl

theorem DDM.step_out_control_level (st : DDM) (x : ℝ) :
    (st.step x).1.out_control_level = st.out_control_level := by
  simp only [DDM.step, DDM.update_stats, DDM.track, DDM.classify]
  split_ifs <;> rfl

theorem DDM.step_miss_prob (st : DDM) (x : ℝ) :
    (st.step x).1.miss_prob
      = st.miss_prob + (x - st.miss_prob) / (st.sample_count : ℝ) := by
  simp only [DDM.step, DDM.update_stats, DDM.track, DDM.classify]
  split_ifs <;> rfl

theorem DDM.step_miss_std (st : DDM) (x : ℝ) :
    (st.step x).1.miss_std
      = Real.sqrt ((st.step x).1.miss_prob * (1 - (st.step x).1.miss_prob)
          / (st.sample_count : ℝ)) := by
  rw [DDM.step_miss_prob]
  simp only [DDM.step, DDM.update_stats, DDM.track, DDM.classify]
  split_ifs <;> rfl

theorem DDM.step_flag_drift (st : DDM) (x : ℝ) :
    (st.step x).1.in_concept_change = (st.step x).2.1 := by
  simp only [DDM.step, DDM.update_stats, DDM.track, DDM.classify]
  split_ifs <;> rfl

theorem DDM.step_flag_warning (st : DDM) (x : ℝ) :
    (st.step x).1.in_warning_zone = (st.step x).2.2 := by
  simp only [DDM.step, DDM.update_stats, DDM.track, DDM.classify]
  split_ifs <;> rfl

theorem DDM.add_element_flag_drift (st : DDM) (x : ℝ) :
    (st.add_element x).1.in_concept_change = (st.add_element x).2.1 := by
  unfold DDM.add_element
  exact DDM.step_flag_drift _ x

theorem DDM.step_gate_out (st : DDM) (x : ℝ) (h : st.sample_count + 1 < st.min_instances) :
    (st.step x).2 = (false, false) := by
  simp only [DDM.step, DDM.update_stats, DDM.track, DDM.classify]
  rw [if_pos h]

theorem DDM.step_min_sum_gate (st : DDM) (x : ℝ) (h : st.sample_count + 1 < st.min_instances) :
    (st.step x).1.miss_prob_sd_min = st.miss_prob_sd_min := by
  simp only [DDM.step, DDM.update_stats, DDM.track, DDM.classify]
  rw [if_pos h]

theorem DDM.step_eq_gate (st : DDM) (x : ℝ) (h : st.sample_count + 1 < st.min_instances) :
    st.step x = (st.update_stats x, false, false) := by
  have h' : (st.update_stats x).sample_count < (st.update_stats x).min_instances := h
  simp only [DDM.step]
  rw [if_pos h']

theorem DDM.step_eq_nogate (st : DDM) (x : ℝ) (h : ¬ st.sample_count + 1 < st.min_instances) :
    st.step x = ((st.update_stats x).track).classify := by
  have h' : ¬ (st.update_stats x).sample_count < (st.update_stats x).min_instances := h
  simp only [DDM.step]
  rw [if_neg h']

theorem DDM.track_miss_prob (st : DDM) : (st.track).miss_prob = st.miss_prob := by
  simp only [DDM.track]; split_ifs <;> rfl

theorem DDM.track_miss_std (st : DDM) : (st.track).miss_std = st.miss_std := by
  simp only [DDM.track]; split_ifs <;> rfl

theorem DDM.track_min_sum (st : DDM) :
    (st.track).miss_prob_sd_min
      = min (((st.miss_prob + st.miss_std : ℝ) : EReal)) st.miss_prob_sd_min := by
  simp only [DDM.track]
  split_ifs with h
  · exact (min_eq_left h).symm
  · exact (min_eq_right (le_of_not_le h)).symm

theorem DDM.track_min_sum_le (st : DDM) :
    (st.track).miss_prob_sd_min ≤ ((st.miss_prob + st.miss_std : ℝ) : EReal) := by
  rw [DDM.track_min_sum]; exact min_le_left _ _

theorem DDM.classify_fst_miss_prob (st : DDM) :
    (st.classify).1.miss_prob = st.miss_prob := by
  simp only [DDM.classify]; split_ifs <;> rfl

theorem DDM.classify_fst_miss_std (st : DDM) :
    (st.classify).1.miss_std = st.miss_std := by
  simp only [DDM.classify]; split_ifs <;> rfl

theorem DDM.classify_fst_min_sum (st : DDM) :
    (st.classify).1.miss_prob_sd_min = st.miss_prob_sd_min := by
  simp only [DDM.classify]; split_ifs <;> rfl

theorem DDM.step_min_sum_nogate (st : DDM) (x : ℝ) (h : ¬ st.sample_count + 1 < st.min_instances) :
    (st.step x).1.miss_prob_sd_min
      = min ((((st.step x).1.miss_prob + (st.step x).1.miss_std : ℝ)) : EReal)
          st.miss_prob_sd_min := by
  rw [DDM.step_eq_nogate st x h, DDM.classify_fst_min_sum, DDM.classify_fst_miss_prob,
    DDM.classify_fst_miss_std, DDM.track_miss_prob, DDM.track_miss_std, DDM.track_min_sum]
  rfl

/-- Claim C5: the pair returned by `add_element` never has `in_drift` and
`in_warning` both true: the drift branch returns `(true, false)`, the
warning branch `(false, true)`, all other paths `(false, false)`. -/
theorem DDM.drift_warning_mutex (st : DDM) (x : ℝ) :
    ¬ ((st.add_element x).2.1 = true ∧ (st.add_element x).2.2 = true) := by
  simp only [DDM.add_element, DDM.step, DDM.update_stats, DDM.track, DDM.classify]
  split_ifs <;> simp

/-- Claim C7: on every `add_element` call, after any pending lazy reset
(the state `if st.in_concept_change then st.reset else st`), the statistics
are updated in source order with the pre-increment count: `miss_prob` by the
incremental-mean formula with divisor `sample_count`, then `miss_std` by the
Bernoulli standard-error formula with the same pre-increment `sample_count`,
and only then `sample_count + 1`; after a reset the divisor is
`reset.sample_count = 1`. -/
theorem DDM.add_element_update_order (st : DDM) (x : ℝ) :
    ((st.add_element x).1.miss_prob
        = (if st.in_concept_change then st.reset else st).miss_prob
          + (x - (if st.in_concept_change then st.reset else st).miss_prob)
            / ((if st.in_concept_change then st.reset else st).sample_count : ℝ))
    ∧ ((st.add_element x).1.miss_std
        = Real.sqrt ((st.add_element x).1.miss_prob
            * (1 - (st.add_element x).1.miss_prob)
            / ((if st.in_concept_change then st.reset else st).sample_count : ℝ)))
    ∧ ((st.add_element x).1.sample_count
        = (if st.in_concept_change then st.reset else st).sample_count + 1)
    ∧ st.reset.sample_count = 1 := by
  refine ⟨?_, ?_, ?_, rfl⟩
  · simp only [DDM.add_element]
    exact DDM.step_miss_prob _ x
  · simp only [DDM.add_element]
    exact DDM.step_miss_std _ x
  · simp only [DDM.add_element]
    exact DDM.step_sample_count _ x

/-- Claim C8: `reset` is idempotent, a reset detector is field-for-field the
freshly constructed detector with the same configuration, and therefore
produces the same output sequence on every subsequent observation list. -/
theorem DDM.reset_idempotent_fresh :
    (∀ st : DDM, st.reset.reset = st.reset)
    ∧ (∀ st : DDM,
        st.reset = DDM.init st.min_instances st.warning_level st.out_control_level)
    ∧ (∀ (st : DDM) (obs : List ℝ),
        DDM.outputs st.reset obs
          = DDM.outputs
              (DDM.init st.min_instances st.warning_level st.out_control_level) obs) :=
  ⟨fun _ => rfl, fun _ => rfl, fun _ _ => rfl⟩

/-- Claim C10: the configuration fields `min_instances`, `warning_level` and
`out_control_level` are frame conditions of both `add_element` and `reset`:
each operation leaves all three unchanged. -/
theorem DDM.config_frame (st : DDM) (x : ℝ) :
    (st.add_element x).1.min_instances = st.min_instances
    ∧ (st.add_element x).1.warning_level = st.warning_level
    ∧ (st.add_element x).1.out_control_level = st.out_control_level
    ∧ st.reset.min_instances = st.min_instances
    ∧ st.reset.warning_level = st.warning_level
    ∧ st.reset.out_control_level = st.out_control_level := by
  refine ⟨?_, ?_, ?_, rfl, rfl, rfl⟩
  · simp only [DDM.add_element]
    rw [DDM.step_min_instances]
    split_ifs <;> rfl
  · simp only [DDM.add_element]
    rw [DDM.step_warning_level]
    split_ifs <;> rfl
  · simp only [DDM.add_element]
    rw [DDM.step_out_control_level]
    split_ifs <;> rfl

/-- Claim C4: if a call returns `in_drift = true`, the next call behaves
exactly as if `reset()` were invoked immediately before processing its
observation: feeding any observation `y` to the post-drift state gives the
same result (state and output) as feeding it to the explicitly reset state,
and that reset state has `sample_count = 1`, `miss_prob = 1`, `miss_std = 0`
and the three minima at `+∞`. -/
theorem DDM.drift_lazy_reset (st : DDM) (x : ℝ) (h : (st.add_element x).2.1 = true) :
    (∀ y : ℝ,
        ((st.add_element x).1).add_element y
          = (((st.add_element x).1).reset).add_element y)
    ∧ ((st.add_element x).1).reset.sample_count = 1
    ∧ ((st.add_element x).1).reset.miss_prob = 1
    ∧ ((st.add_element x).1).reset.miss_std = 0
    ∧ ((st.add_element x).1).reset.miss_prob_sd_min = ⊤
    ∧ ((st.add_element x).1).reset.miss_prob_min = ⊤
    ∧ ((st.add_element x).1).reset.miss_sd_min = ⊤ := by
  have hflag : (st.add_element x).1.in_concept_change = true := by
    rw [DDM.add_element_flag_drift]; exact h
  refine ⟨fun y => ?_, rfl, rfl, rfl, rfl, rfl, rfl⟩
  conv_lhs => rw [DDM.add_element]
  conv_rhs => rw [DDM.add_element]
  rw [hflag]
  rfl

theorem DDM.drift_lazy_reset_witness :
    (driftState.add_element 1).2.1 = true
    ∧ ((driftState.add_element 1).1).add_element 0
        = (((driftState.add_element 1).1).reset).add_element 0
    ∧ ((driftState.add_element 1).1).reset.sample_count = 1 := by
  have h : (driftState.add_element 1).2.1 = true := by
    simp only [driftState, DDM.add_element, DDM.step, DDM.update_stats, DDM.track,
      DDM.classify]
    norm_num
    rw [if_neg (show ¬ ((1:EReal) ≤ (0:EReal)) from by norm_num)]
    norm_num
  exact ⟨h, (DDM.drift_lazy_reset driftState 1 h).1 0,
    (DDM.drift_lazy_reset driftState 1 h).2.1⟩

/-- Claim C3 is refuted by the very first observation under the default
configuration: after `add_element 0` from a fresh detector the warm-up gate
returns early, so `miss_prob_sd_min` is still `+∞` while
`miss_prob + miss_std = 0`, and `min_sum ≤ miss_prob + miss_std` fails. -/
theorem DDM.min_sum_le_current_counterexample :
    ¬ ((DDM.run (DDM.init 30 2 3) [0]).miss_prob_sd_min
        ≤ (((DDM.run (DDM.init 30 2 3) [0]).miss_prob
            + (DDM.run (DDM.init 30 2 3) [0]).miss_std : ℝ) : EReal)) := by
  have h1 : (DDM.run (DDM.init 30 2 3) [0]).miss_prob_sd_min = ⊤ := by
    simp only [DDM.run, DDM.add_element, DDM.init, DDM.reset]
    norm_num
    rw [DDM.step_min_sum_gate _ _ (by norm_num)]
  intro hle
  rw [h1] at hle
  exact EReal.coe_ne_top _ (top_le_iff.mp hle)

/-- Claim C3 (amended): the running-minimum invariant
`miss_prob_sd_min ≤ miss_prob + miss_std` holds after every `add_element`
call that ends with `sample_count ≥ min_instances`, i.e. after every call
that got past the warm-up gate (during warm-up the minima are still `+∞`
and the invariant does not hold). -/
theorem DDM.min_sum_le_current (st : DDM) (x : ℝ)
    (h : ¬ (st.add_element x).1.sample_count < (st.add_element x).1.min_instances) :
    (st.add_element x).1.miss_prob_sd_min
      ≤ (((st.add_element x).1.miss_prob
          + (st.add_element x).1.miss_std : ℝ) : EReal) := by
  simp only [DDM.add_element] at *
  rw [DDM.step_sample_count, DDM.step_min_instances] at h
  rw [DDM.step_min_sum_nogate _ x h]
  exact min_le_left _ _

theorem DDM.min_sum_le_current_witness :
    (¬ (((DDM.init 2 2 3).add_element 1).1.sample_count
        < ((DDM.init 2 2 3).add_element 1).1.min_instances))
    ∧ ((DDM.init 2 2 3).add_element 1).1.miss_prob_sd_min
        ≤ ((((DDM.init 2 2 3).add_element 1).1.miss_prob
            + ((DDM.init 2 2 3).add_element 1).1.miss_std : ℝ) : EReal) := by
  have hh : ¬ (((DDM.init 2 2 3).add_element 1).1.sample_count
      < ((DDM.init 2 2 3).add_element 1).1.min_instances) := by
    simp only [DDM.add_element, DDM.init, DDM.reset]
    norm_num
    rw [DDM.step_sample_count, DDM.step_min_instances]
  exact ⟨hh, DDM.min_sum_le_current _ _ hh⟩

theorem DDM.classify_warning_of_eq (s : DDM)
    (h : ((s.miss_prob + s.miss_std : ℝ) : EReal)
        = s.miss_prob_min + (s.warning_level : EReal) * s.miss_sd_min) :
    (s.classify).2.2 = false := by
  simp only [DDM.classify]
  split_ifs with h1 h2
  · rfl
  · rw [h] at h2
    exact absurd h2 (lt_irrefl _)
  · rfl

/-- Claim C6: the warning comparison at lines 149–151 is strict.  First
conjunct: on any call where, after the call's minimum-tracking step,
`miss_prob + miss_std` is exactly equal to
`miss_prob_min + warning_level * miss_sd_min`, `add_element` returns
`in_warning = false`.  Second conjunct: an input strictly between the
warning and the out-control thresholds does return `in_warning = true`. -/
theorem DDM.warning_strict :
    (∀ (st : DDM) (x : ℝ),
        ((((if st.in_concept_change then st.reset else st).update_stats x).track.miss_prob
            + ((if st.in_concept_change then st.reset else st).update_stats
                x).track.miss_std : ℝ) : EReal)
          = ((if st.in_concept_change then st.reset else st).update_stats
              x).track.miss_prob_min
            + ((((if st.in_concept_change then st.reset else st).update_stats
                x).track.warning_level : ℝ) : EReal)
              * ((if st.in_concept_change then st.reset else st).update_stats
                  x).track.miss_sd_min
        → (st.add_element x).2.2 = false)
    ∧ (warnState.add_element 1).2 = (false, true) := by
  constructor
  · intro st x heq
    simp only [DDM.add_element] at *
    by_cases hg : (if st.in_concept_change then st.reset else st).sample_count + 1
        < (if st.in_concept_change then st.reset else st).min_instances
    · rw [DDM.step_eq_gate _ _ hg]
    · rw [DDM.step_eq_nogate _ _ hg]
      exact DDM.classify_warning_of_eq _ heq
  · simp only [warnState, DDM.add_element, DDM.step, DDM.update_stats, DDM.track,
      DDM.classify]
    norm_num
    rw [if_neg (show ¬ ((1:EReal) ≤ (0:EReal)) from by norm_num)]
    norm_num [← EReal.coe_mul]
    rw [if_neg (show ¬ ((((6:ℝ)/5 : ℝ) : EReal) < 1) from by
          rw [← EReal.coe_one, EReal.coe_lt_coe_iff]; norm_num),
      if_pos (show ((((4:ℝ)/5 : ℝ) : EReal) < 1) from by
          rw [← EReal.coe_one, EReal.coe_lt_coe_iff]; norm_num)]

theorem DDM.warning_strict_witness :
    (eqState.add_element 1).2.2 = false
    ∧ (warnState.add_element 1).2 = (false, true) := by
  have heq : ((((if eqState.in_concept_change then eqState.reset else
          eqState).update_stats 1).track.miss_prob
        + ((if eqState.in_concept_change then eqState.reset else
            eqState).update_stats 1).track.miss_std : ℝ) : EReal)
      = ((if eqState.in_concept_change then eqState.reset else
          eqState).update_stats 1).track.miss_prob_min
        + ((((if eqState.in_concept_change then eqState.reset else
            eqState).update_stats 1).track.warning_level : ℝ) : EReal)
          * ((if eqState.in_concept_change then eqState.reset else
              eqState).update_stats 1).track.miss_sd_min := by
    simp only [eqState, DDM.update_stats, DDM.track]
    norm_num
    rw [if_neg (show ¬ ((1:EReal) ≤ (0:EReal)) from by norm_num)]
    norm_num [← EReal.coe_mul, ← EReal.coe_add]
  exact ⟨DDM.warning_strict.1 eqState 1 heq, DDM.warning_strict.2⟩

theorem mean_update_mem (p x n : ℝ) (hn : 1 ≤ n) (hp : p ∈ Set.Icc (0:ℝ) 1)
    (hx : x = 0 ∨ x = 1) : p + (x - p) / n ∈ Set.Icc (0:ℝ) 1 := by
  obtain ⟨hp0, hp1⟩ := hp
  have hn0 : (0:ℝ) < n := lt_of_lt_of_le one_pos hn
  rcases hx with h | h <;> subst h
  · have h1 : p / n ≤ p := div_le_self hp0 hn
    have h2 : 0 ≤ p / n := div_nonneg hp0 hn0.le
    have h3 : (0 - p) / n = -(p / n) := by ring
    rw [h3]
    constructor <;> linarith
  · have h1 : (1 - p) / n ≤ 1 - p := div_le_self (by linarith) hn
    have h2 : 0 ≤ (1 - p) / n := div_nonneg (by linarith) hn0.le
    constructor <;> linarith

theorem DDM.run_miss_prob_mem (obs : List ℝ) :
    ∀ st : DDM, (∀ x ∈ obs, x = 0 ∨ x = 1) → 1 ≤ st.sample_count →
      st.miss_prob ∈ Set.Icc (0:ℝ) 1 →
      (DDM.run st obs).miss_prob ∈ Set.Icc (0:ℝ) 1
        ∧ 1 ≤ (DDM.run st obs).sample_count := by
  induction obs with
  | nil => exact fun st _ h1 h2 => ⟨h2, h1⟩
  | cons x xs ih =>
    intro st hobs h1 h2
    simp only [DDM.run]
    have hp0 : (if st.in_concept_change then st.reset else st).miss_prob
        ∈ Set.Icc (0:ℝ) 1 := by
      split_ifs
      · exact ⟨by norm_num [DDM.reset], by norm_num [DDM.reset]⟩
      · exact h2
    have hn0 : 1 ≤ (if st.in_concept_change then st.reset else st).sample_count := by
      split_ifs
      · exact le_refl 1
      · exact h1
    apply ih
    · exact fun y hy => hobs y (List.mem_cons_of_mem _ hy)
    · simp only [DDM.add_element]
      rw [DDM.step_sample_count]
      exact Nat.le_add_left 1 _
    · simp only [DDM.add_element]
      rw [DDM.step_miss_prob]
      exact mean_update_mem _ x _ (by exact_mod_cast hn0) hp0
        (hobs x (List.mem_cons_self _ _))

theorem DDM.run_miss_std_nonneg (obs : List ℝ) :
    ∀ st : DDM, 0 ≤ st.miss_std → 0 ≤ (DDM.run st obs).miss_std := by
  induction obs with
  | nil => exact fun st h => h
  | cons x xs ih =>
    intro st h
    simp only [DDM.run]
    apply ih
    simp only [DDM.add_element]
    rw [DDM.step_miss_std]
    exact Real.sqrt_nonneg _

/-- Claim C9: when every observation is in `{0, 1}`, after every call
`miss_prob` stays in `[0, 1]`, so the argument of the square root in the
`miss_std` formula is never negative, and `miss_std ≥ 0` holds. -/
theorem DDM.error_std_nonneg (m : ℕ) (w o : ℝ) (obs : List ℝ)
    (hobs : ∀ x ∈ obs, x = 0 ∨ x = 1) :
    (DDM.run (DDM.init m w o) obs).miss_prob ∈ Set.Icc (0:ℝ) 1
    ∧ 0 ≤ (DDM.run (DDM.init m w o) obs).miss_prob
        * (1 - (DDM.run (DDM.init m w o) obs).miss_prob)
    ∧ 0 ≤ (DDM.run (DDM.init m w o) obs).miss_std := by
  obtain ⟨hmem, -⟩ := DDM.run_miss_prob_mem obs (DDM.init m w o) hobs
    (le_refl 1) ⟨by norm_num [DDM.init, DDM.reset], by norm_num [DDM.init, DDM.reset]⟩
  exact ⟨hmem, mul_nonneg hmem.1 (by linarith [hmem.2]),
    DDM.run_miss_std_nonneg obs (DDM.init m w o) (le_refl 0)⟩

theorem DDM.error_std_nonneg_witness :
    (∀ x ∈ ([0, 1, 1] : List ℝ), x = 0 ∨ x = 1)
    ∧ (DDM.run (DDM.init 30 2 3) [0, 1, 1]).miss_prob ∈ Set.Icc (0:ℝ) 1
    ∧ 0 ≤ (DDM.run (DDM.init 30 2 3) [0, 1, 1]).miss_std := by
  have hobs : ∀ x ∈ ([0, 1, 1] : List ℝ), x = 0 ∨ x = 1 := by
    intro x hx
    simp only [List.mem_cons, List.not_mem_nil, or_false] at hx
    rcases hx with h | h | h
    · exact Or.inl h
    · exact Or.inr h
    · exact Or.inr h
  exact ⟨hobs, (DDM.error_std_nonneg 30 2 3 _ hobs).1,
    (DDM.error_std_nonneg 30 2 3 _ hobs).2.2⟩

theorem DDM.add_element_of_not_drift (st : DDM) (x : ℝ) (h : st.in_concept_change = false) :
    st.add_element x = st.step x := by
  simp only [DDM.add_element, h]
  rfl

theorem DDM.run_min_sum (obs : List ℝ) :
    ∀ st : DDM, st.in_concept_change = false →
      (∀ p ∈ DDM.outputs st obs, p.1 = false) →
      (DDM.run st obs).miss_prob_sd_min
        = (DDM.trackedSums st obs).foldl (fun (a : EReal) (x : ℝ) => min a (x : EReal))
            st.miss_prob_sd_min := by
  induction obs with
  | nil => intro st _ _; rfl
  | cons x xs ih =>
    intro st hflag hnd
    have houts : DDM.outputs st (x :: xs)
        = (st.add_element x).2 :: DDM.outputs (st.add_element x).1 xs := rfl
    rw [houts] at hnd
    have hstep : st.add_element x = st.step x :=
      DDM.add_element_of_not_drift st x hflag
    have hnd0 : (st.step x).2.1 = false := by
      rw [← hstep]; exact (hnd _ (List.mem_cons_self _ _))
    have hflag1 : (st.step x).1.in_concept_change = false := by
      rw [DDM.step_flag_drift]; exact hnd0
    have hnd1 : ∀ p ∈ DDM.outputs (st.step x).1 xs, p.1 = false := by
      rw [← hstep]; exact fun p hp => hnd p (List.mem_cons_of_mem _ hp)
    simp only [DDM.run, DDM.trackedSums, hstep]
    rw [DDM.step_sample_count, DDM.step_min_instances]
    by_cases hg : st.sample_count + 1 < st.min_instances
    · rw [if_pos hg, ih _ hflag1 hnd1]
      congr 1
      exact DDM.step_min_sum_gate st x hg
    · rw [if_neg hg, List.foldl_cons, ih _ hflag1 hnd1]
      congr 1
      rw [DDM.step_min_sum_nogate st x hg]
      exact min_comm _ _

/-- Claim C2 (amended): the minimum-tracking step runs only on calls that
get past the warm-up gate, so for any run without drift events,
`miss_prob_sd_min` equals the running minimum (starting from `+∞`) of
`miss_prob + miss_std` taken over exactly those calls whose post-increment
`sample_count` reached `min_instances` — not over all observations of the
prefix. -/
theorem DDM.min_sum_is_tracked_min (m : ℕ) (w o : ℝ) (obs : List ℝ)
    (hnd : ∀ p ∈ DDM.outputs (DDM.init m w o) obs, p.1 = false) :
    (DDM.run (DDM.init m w o) obs).miss_prob_sd_min
      = (DDM.trackedSums (DDM.init m w o) obs).foldl
          (fun (a : EReal) (x : ℝ) => min a (x : EReal)) ⊤ :=
  DDM.run_min_sum obs (DDM.init m w o) rfl hnd

/-- Claim C2 is refuted by the first observation under the default
configuration: the warm-up gate returns before the minimum-tracking step,
so after `add_element 0` the stored `miss_prob_sd_min` is still `+∞`,
while the running minimum of `miss_prob + miss_std` over the prefix is
`0 + 0 = 0`. -/
theorem DDM.min_sum_is_tracked_min_counterexample :
    (DDM.run (DDM.init 30 2 3) [0]).miss_prob_sd_min
      ≠ (DDM.sumList (DDM.init 30 2 3) [0]).foldl
          (fun (a : EReal) (x : ℝ) => min a (x : EReal)) ⊤ := by
  have h1 : (DDM.run (DDM.init 30 2 3) [0]).miss_prob_sd_min = ⊤ := by
    simp only [DDM.run, DDM.add_element, DDM.init, DDM.reset]
    norm_num
    rw [DDM.step_min_sum_gate _ _ (by norm_num)]
  have hp : ((DDM.init 30 2 3).add_element 0).1.miss_prob = 0 := by
    simp only [DDM.add_element, DDM.init, DDM.reset]
    norm_num
    rw [DDM.step_miss_prob]
    norm_num
  have hs : ((DDM.init 30 2 3).add_element 0).1.miss_std = 0 := by
    simp only [DDM.add_element, DDM.init, DDM.reset]
    norm_num
    rw [DDM.step_miss_std, DDM.step_miss_prob]
    norm_num
  have h2 : DDM.sumList (DDM.init 30 2 3) [0]
      = [((DDM.init 30 2 3).add_element 0).1.miss_prob
          + ((DDM.init 30 2 3).add_element 0).1.miss_std] := rfl
  rw [h1, h2, hp, hs]
  rw [List.foldl_cons, List.foldl_nil, min_eq_right le_top]
  exact fun hc => (EReal.coe_ne_top (0 + 0)) hc.symm

theorem DDM.min_sum_is_tracked_min_witness :
    (∀ p ∈ DDM.outputs (DDM.init 2 2 3) [1, 1], p.1 = false)
    ∧ (DDM.run (DDM.init 2 2 3) [1, 1]).miss_prob_sd_min
      = (DDM.trackedSums (DDM.init 2 2 3) [1, 1]).foldl
          (fun (a : EReal) (x : ℝ) => min a (x : EReal)) ⊤ := by
  have hnd : ∀ p ∈ DDM.outputs (DDM.init 2 2 3) [1, 1], p.1 = false := by
    have houts : DDM.outputs (DDM.init 2 2 3) [1, 1]
        = [(false, false), (false, false)] := by
      simp only [DDM.outputs, DDM.add_element, DDM.step, DDM.update_stats, DDM.track,
        DDM.classify, DDM.init, DDM.reset]
      norm_num
    rw [houts]
    intro p hp
    simp only [List.mem_cons, List.not_mem_nil, or_false] at hp
    rcases hp with h | h <;> (subst h; rfl)
  exact ⟨hnd, DDM.min_sum_is_tracked_min 2 2 3 [1, 1] hnd⟩

theorem DDM.outputs_get (obs : List ℝ) :
    ∀ (st : DDM) (j : ℕ) (hj : j < obs.length),
      (DDM.outputs st obs).get? j
        = some ((DDM.run st (obs.take j)).add_element (obs.get ⟨j, hj⟩)).2 := by
  induction obs with
  | nil => intro st j hj; exact absurd hj (Nat.not_lt_zero j)
  | cons x xs ih =>
    intro st j hj
    cases j with
    | zero => rfl
    | succ j =>
      have h1 : (DDM.outputs st (x :: xs)).get? (j + 1)
          = (DDM.outputs (st.add_element x).1 xs).get? j := rfl
      rw [h1, ih _ j (Nat.lt_of_succ_lt_succ hj)]
      rfl

theorem DDM.run_warm (obs : List ℝ) :
    ∀ st : DDM, st.in_concept_change = false →
      st.sample_count + obs.length < st.min_instances →
      st.miss_prob_sd_min = ⊤ →
      ((DDM.run st obs).sample_count = st.sample_count + obs.length
        ∧ (DDM.run st obs).min_instances = st.min_instances
        ∧ (DDM.run st obs).warning_level = st.warning_level
        ∧ (DDM.run st obs).out_control_level = st.out_control_level
        ∧ (DDM.run st obs).in_concept_change = false
        ∧ (DDM.run st obs).miss_prob_sd_min = ⊤) := by
  induction obs with
  | nil =>
    intro st h1 _ h3
    refine ⟨?_, rfl, rfl, rfl, h1, h3⟩
    simp only [DDM.run, List.length_nil, Nat.add_zero]
  | cons x xs ih =>
    intro st hflag hlen hms
    have hstep : st.add_element x = st.step x :=
      DDM.add_element_of_not_drift st x hflag
    have hg : st.sample_count + 1 < st.min_instances := by
      simp only [List.length_cons] at hlen; omega
    have hstg : st.step x = (st.update_stats x, false, false) :=
      DDM.step_eq_gate st x hg
    have hsc' : (st.update_stats x).sample_count = st.sample_count + 1 := rfl
    have hmi' : (st.update_stats x).min_instances = st.min_instances := rfl
    obtain ⟨a, b, c, d, e, f⟩ := ih (st.update_stats x) rfl
      (by
        rw [hsc', hmi']
        simp only [List.length_cons] at hlen
        omega)
      hms
    simp only [DDM.run, hstep, hstg]
    refine ⟨?_, ?_, ?_, ?_, e, f⟩
    · rw [a, hsc']
      simp only [List.length_cons]
      omega
    · rw [b, hmi']
    · rw [c]; rfl
    · rw [d]; rfl

theorem DDM.step_warm_out (st : DDM) (y : ℝ) (hms : st.miss_prob_sd_min = ⊤)
    (hw1 : 1 ≤ st.warning_level) (hwo : st.warning_level ≤ st.out_control_level) :
    (st.step y).2 = (false, false) := by
  by_cases hg : st.sample_count + 1 < st.min_instances
  · exact DDM.step_gate_out st y hg
  · rw [DDM.step_eq_nogate st y hg]
    have hms' : ((((st.update_stats y).miss_prob
          + (st.update_stats y).miss_std : ℝ)) : EReal)
        ≤ (st.update_stats y).miss_prob_sd_min := by
      have h : (st.update_stats y).miss_prob_sd_min = ⊤ := hms
      rw [h]; exact le_top
    simp only [DDM.track]
    rw [if_pos hms']
    have hs : 0 ≤ (st.update_stats y).miss_std := Real.sqrt_nonneg _
    have ho1 : 1 ≤ (st.update_stats y).out_control_level := le_trans hw1 hwo
    have hw1' : 1 ≤ (st.update_stats y).warning_level := hw1
    simp only [DDM.classify]
    split_ifs with h1 h2
    · exfalso
      rw [← EReal.coe_mul, ← EReal.coe_add, EReal.coe_lt_coe_iff] at h1
      nlinarith [hs, ho1]
    · exfalso
      rw [← EReal.coe_mul, ← EReal.coe_add, EReal.coe_lt_coe_iff] at h2
      nlinarith [hs, hw1']
    · rfl

/-- Claim C1 (amended): provided `1 ≤ warning_level ≤ out_control_level`
(the defaults are 2.0 and 3.0), every call at a 1-indexed position
`j + 1 < min_instances` since the start of a fresh run returns
`(false, false)`: positions up to `min_instances - 2` by the warm-up gate,
and position `min_instances - 1` — where the gate no longer fires — because
the minimum snapshot is taken at that very call, so with levels `≥ 1`
neither threshold can be exceeded.  (Without the level assumption the claim
fails, see the counterexample.) -/
theorem DDM.warmup_suppression (m : ℕ) (w o : ℝ) (obs : List ℝ) (j : ℕ)
    (hw : 1 ≤ w) (hwo : w ≤ o) (hj : j < obs.length) (hjm : j + 1 < m) :
    (DDM.outputs (DDM.init m w o) obs).get? j = some (false, false) := by
  rw [DDM.outputs_get obs (DDM.init m w o) j hj]
  have htk : (obs.take j).length = j := by
    rw [List.length_take]
    exact min_eq_left hj.le
  obtain ⟨hsc, hmi, hwl, hol, hflag, hms⟩ :=
    DDM.run_warm (obs.take j) (DDM.init m w o) rfl
      (by
        show 1 + (obs.take j).length < m
        rw [htk]; omega)
      rfl
  rw [DDM.add_element_of_not_drift _ _ hflag]
  apply congrArg some
  apply DDM.step_warm_out
  · exact hms
  · rw [hwl]; exact hw
  · rw [hwl, hol]; exact hwo

theorem DDM.warmup_suppression_witness :
    ((1:ℝ) ≤ 2 ∧ (2:ℝ) ≤ 3 ∧ (0:ℕ) < 1 ∧ (0:ℕ) + 1 < 30)
    ∧ (DDM.outputs (DDM.init 30 2 3) [0]).get? 0 = some (false, false) :=
  ⟨⟨by norm_num, by norm_num, by norm_num, by norm_num⟩,
    DDM.warmup_suppression 30 2 3 [0] 0 (by norm_num) (by norm_num)
      (by norm_num) (by norm_num)⟩

/-- Claim C1 is refuted as stated: under the configuration
`min_instances = 3`, `warning_level = 1/4`, `out_control_level = 1/2` —
which satisfies the spec's configuration invariant
`out_control_level > warning_level > 0` — the stream `[0, 1]` makes the
call at 1-indexed position `2 < min_instances = 3` return
`in_drift = true`: that call is past the warm-up gate (post-increment
`sample_count = 3`), the minimum snapshot is taken there, and with
`out_control_level < 1` the drift comparison `s > out_control_level * s`
holds for the positive `miss_std = sqrt(1/8)`. -/
theorem DDM.warmup_suppression_counterexample :
    ((0:ℝ) < 1/4 ∧ (1/4:ℝ) < 1/2 ∧ (2:ℕ) < 3)
    ∧ (DDM.outputs (DDM.init 3 (1/4) (1/2)) [0, 1]).get? 1 = some (true, false) := by
  refine ⟨⟨by norm_num, by norm_num, by norm_num⟩, ?_⟩
  have h0 : ((DDM.init 3 (1/4) (1/2)).add_element 0).1 = c1Mid := by
    simp only [DDM.add_element, DDM.init, DDM.reset, DDM.step, DDM.update_stats,
      DDM.track, DDM.classify, c1Mid]
    norm_num
  have hidx : (DDM.outputs (DDM.init 3 (1/4) (1/2)) [0, 1]).get? 1
      = some ((((DDM.init 3 (1/4) (1/2)).add_element 0).1).add_element 1).2 := rfl
  rw [hidx, h0]
  apply congrArg some
  rw [DDM.add_element_of_not_drift _ _ rfl]
  rw [DDM.step_eq_nogate _ _ (by norm_num [c1Mid])]
  have hmp : (c1Mid.update_stats 1).miss_prob = 1/2 := by
    simp only [DDM.update_stats, c1Mid]; norm_num
  have hmsd : (c1Mid.update_stats 1).miss_std = Real.sqrt (1/8) := by
    simp only [DDM.update_stats, c1Mid]; norm_num
  have ho : (c1Mid.update_stats 1).out_control_level = 1/2 := rfl
  have hms' : ((((c1Mid.update_stats 1).miss_prob
        + (c1Mid.update_stats 1).miss_std : ℝ)) : EReal)
      ≤ (c1Mid.update_stats 1).miss_prob_sd_min := le_top
  simp only [DDM.track]
  rw [if_pos hms']
  have h8 : 0 < Real.sqrt (1/8) := Real.sqrt_pos.mpr (by norm_num)
  have hdrift : ((c1Mid.update_stats 1).miss_prob : EReal)
      + (((c1Mid.update_stats 1).out_control_level : ℝ) : EReal)
        * ((c1Mid.update_stats 1).miss_std : EReal)
      < (((c1Mid.update_stats 1).miss_prob
          + (c1Mid.update_stats 1).miss_std : ℝ) : EReal) := by
    rw [← EReal.coe_mul, ← EReal.coe_add, EReal.coe_lt_coe_iff, hmp, hmsd, ho]
    linarith
  simp only [DDM.classify]
  split_ifs
  rfl
